import Mathlib

/-!
# Verification of the S3 blob store (`internal/storage/blob/s3/s3.go`)

A shallow embedding of the streaming-write blob store backed by an
S3-compatible object service. The minio client is modelled as a key-value
object map together with per-object fault injections for its three calls
(`PutObject`, `GetObject`, `RemoveObject`); Go errors are modelled as an
inductive type that keeps `fmt.Errorf("...: %w", err)` wrapping and minio
error responses (with their HTTP status code) distinguishable. The
concurrency of the background upload goroutine is collapsed into a
sequential execution: the goroutine blocks reading the pipe until the
write end is closed, so its whole effect is a function of the pipe state
at close time (`backgroundTask`).
-/

namespace S3

/-- A minio `ErrorResponse`: the part of it the code inspects (the HTTP
status code) plus a message for identification. -/
structure ErrorResponse where
  statusCode : Nat
  message : String
deriving DecidableEq, Repr

/-- Go `error` values occurring in this code: the domain sentinel
`module.ErrNoSuchBlob` (defined outside this file's source, used as an
opaque sentinel), a minio backend error carrying an `ErrorResponse`, a
wrapping produced by `fmt.Errorf("<pre>: %w", inner)`, and a plain
message error (`fmt.Errorf` / `errors.New` without `%w`). -/
inductive GoErr where
  | noSuchBlob : GoErr
  | minio : ErrorResponse → GoErr
  | errorf : String → GoErr → GoErr
  | message : String → GoErr
deriving DecidableEq, Repr

/-- `minio.ToErrorResponse`: returns the embedded `ErrorResponse` when the
error is a minio error, and the zero value otherwise (so its status code
is 0 for non-minio errors). -/
def ToErrorResponse : GoErr → ErrorResponse
  | .minio r => r
  | _ => { statusCode := 0, message := "" }

/-- Whether a Go error is an `fmt.Errorf("...%w...")` wrapping. -/
def GoErr.isWrapping : GoErr → Bool
  | .errorf _ _ => true
  | _ => false

/-- `http.StatusNotFound`. -/
def StatusNotFound : Nat := 404

/-- The minio client together with the remote bucket state it talks to:
`objects` maps a full object name to its stored bytes, and the three
`*Fail` fields inject a backend error for the corresponding call on a
given object name (modelling network/permission/service failures). -/
structure Client where
  objects : String → Option (List Nat)
  putFail : String → Option GoErr
  getFail : String → Option GoErr
  removeFail : String → Option GoErr

/-- `cl.PutObject(ctx, bucket, objName, reader, -1, opts)`: streams the
whole byte sequence `data` into one object. On an injected failure the
bucket is unchanged and the error is returned; otherwise the object is
stored and `nil` is returned. -/
def Client.PutObject (cl : Client) (objName : String) (data : List Nat) :
    Client × Option GoErr :=
  match cl.putFail objName with
  | some e => (cl, some e)
  | none =>
      ({ cl with objects := fun n => if n = objName then some data else cl.objects n },
       none)

/-- `cl.GetObject(ctx, bucket, objName, opts)`: on an injected failure,
that error; on a missing object, a minio error with HTTP status 404;
otherwise the object's bytes (read lazily by the caller). -/
def Client.GetObject (cl : Client) (objName : String) : Except GoErr (List Nat) :=
  match cl.getFail objName with
  | some e => .error e
  | none =>
      match cl.objects objName with
      | some data => .ok data
      | none => .error (.minio { statusCode := StatusNotFound,
                                 message := "The specified key does not exist." })

/-- `cl.RemoveObject(ctx, bucket, objName, opts)`: on an injected failure
the object (if any) stays and the error is returned; otherwise the object
is removed (removing an absent object succeeds, as in S3). -/
def Client.RemoveObject (cl : Client) (objName : String) : Client × Option GoErr :=
  match cl.removeFail objName with
  | some e => (cl, some e)
  | none =>
      ({ cl with objects := fun n => if n = objName then none else cl.objects n },
       none)

/-- The `Store` fields the blob operations read: the bucket name and the
key prefix prepended to every logical key (`s.objectPrefix+key`).
Endpoint, credentials and transport security only configure the client
and are not modelled. -/
structure Store where
  bucketName : String
  objectPrefix : String
deriving DecidableEq, Repr

/-- The state of the `io.Pipe` as seen through its write end: still open
with the bytes already relayed to the consumer, closed cleanly
(`pw.Close()`, EOF after the relayed bytes), or closed with an error
(`pw.CloseWithError(e)` / read-end error close). Per `io.Pipe` semantics
the first close wins: later closes of an already-closed pipe do nothing. -/
inductive PipeState where
  | opened : List Nat → PipeState
  | closedClean : List Nat → PipeState
  | closedErr : List Nat → GoErr → PipeState
deriving DecidableEq, Repr

/-- Whether the write end of the pipe has been closed (cleanly or with an
error): the condition under which the blocked consumer's read completes
and the background task can run to termination. -/
def PipeState.isClosed : PipeState → Bool
  | .opened _ => false
  | _ => true

/-- `pw.Close()`: a clean close of the write end; a no-op when the pipe is
already closed (first close wins). -/
def PipeState.close : PipeState → PipeState
  | .opened w => .closedClean w
  | p => p

/-- `pw.CloseWithError(e)`: close the write end with error `e`; a no-op
when the pipe is already closed (first close wins). -/
def PipeState.closeWithError (p : PipeState) (e : GoErr) : PipeState :=
  match p with
  | .opened w => .closedErr w e
  | p => p

/-- `pw.Write(p)`: on an open pipe the bytes are relayed (blocking until
consumed) and the full count is returned; after any close the write fails
with `io.ErrClosedPipe` (or the error the read end was closed with). -/
def PipeState.write (p : PipeState) (bs : List Nat) : PipeState × Nat × Option GoErr :=
  match p with
  | .opened w => (.opened (w ++ bs), bs.length, none)
  | .closedClean w => (.closedClean w, 0, some (.message "io: read/write on closed pipe"))
  | .closedErr w e => (.closedErr w e, 0, some e)

/-- The `s3blob` struct: the pipe write end and the `didSync` flag. The
outcome channel `errCh` is not stored here: its buffered capacity is
`errChCapacity` and its traffic is modelled in `backgroundTask` (the only
sender) and `s3blob.Sync` (the only receiver). -/
structure s3blob where
  pw : PipeState
  didSync : Bool
deriving DecidableEq, Repr

/-- The capacity of the outcome channel: `errCh := make(chan error, 1)`. -/
def errChCapacity : Nat := 1

/-- Modelled from the spec: the error with which the backend `put` call
(the minio library, not part of the source tree) fails when its reader —
the pipe read end — was closed with error `e` before EOF: the upload
aborts with an error derived from `e` rather than storing a truncated
object. -/
def abortedPut (e : GoErr) : GoErr := e

/-- The observable effect of the goroutine launched by `Store.Create`,
run to completion once the pipe write end is closed. -/
structure TaskResult where
  cl : Client
  prCloseErr : Option GoErr
  sends : List (Option GoErr)

/-- The body of the goroutine launched by `Store.Create`: one
`PutObject` call consuming the pipe read end, then — whatever the
outcome — exactly one send of the put error on `errCh`:

```
_, err := s.cl.PutObject(..., s.objectPrefix+key, pr, -1, ...)
if err != nil { pr.CloseWithError(fmt.Errorf("s3 PutObject: %w", err)) }
errCh <- err
```

The task blocks inside `PutObject` reading the pipe, so its effect is a
function of the pipe state when the write end gets closed: on a clean
close the put consumes exactly the relayed bytes; on an error close the
put aborts with that error. `sends` lists the values sent on `errCh`
(raw put errors — the `"s3 PutObject: %w"` wrapping goes only to the
read-end close), and `prCloseErr` is the error the task closed the read
end with, if any. On an open pipe the task is still blocked: no sends. -/
def backgroundTask (s : Store) (cl : Client) (key : String) (p : PipeState) :
    TaskResult :=
  match p with
  | .opened _ => { cl := cl, prCloseErr := none, sends := [] }
  | .closedClean w =>
      let r := cl.PutObject (s.objectPrefix ++ key) w
      match r.2 with
      | none => { cl := r.1, prCloseErr := none, sends := [none] }
      | some e =>
          { cl := r.1, prCloseErr := some (.errorf "s3 PutObject" e),
            sends := [some e] }
  | .closedErr _ e =>
      { cl := cl, prCloseErr := some (.errorf "s3 PutObject" (abortedPut e)),
        sends := [some (abortedPut e)] }

/-- What `Sync` produces: either a Go `panic` (the call does not return
normally) or a normal return of an `error` value. -/
inductive SyncResult where
  | panicked : String → SyncResult
  | ok : Option GoErr → SyncResult
deriving DecidableEq, Repr

/-- The panic message of a second `Sync`. -/
def syncTwiceMsg : String := "storage.blob.s3: Sync called twice for a blob object"

/-- `(b *s3blob) Sync() error`: panics if `didSync` is already set;
otherwise closes the pipe write end cleanly, sets `didSync`, and blocks
receiving from `errCh` — i.e. the completed background task's single
posted value, which it returns. Returns the updated client, the updated
blob and the result. -/
def s3blob.Sync (s : Store) (cl : Client) (key : String) (b : s3blob) :
    Client × s3blob × SyncResult :=
  if b.didSync then
    (cl, b, .panicked syncTwiceMsg)
  else
    let p := b.pw.close
    let t := backgroundTask s cl key p
    (t.cl, { pw := p, didSync := true }, .ok (t.sends.headD none))

/-- `(b *s3blob) Write(p)`: forwards to the pipe write end. -/
def s3blob.Write (b : s3blob) (bs : List Nat) : s3blob × Nat × Option GoErr :=
  let r := b.pw.write bs
  ({ b with pw := r.1 }, r.2)

/-- The message of the error `Close` puts on the pipe when the blob was
not synced. -/
def closeNoSyncMsg : String := "storage.blob.s3: blob closed without Sync"

/-- `(b *s3blob) Close() error`: if `didSync` is not set, error-closes the
pipe write end with `closeNoSyncMsg`; in every case returns `nil`. -/
def s3blob.Close (b : s3blob) : s3blob × Option GoErr :=
  if !b.didSync then
    ({ b with pw := b.pw.closeWithError (.message closeNoSyncMsg) }, none)
  else
    (b, none)

/-- `Store.Create`: allocates the pipe and the outcome channel, launches
the background task (modelled by `backgroundTask`, which stays blocked
while the pipe is open), and returns the fresh handle; the error result
is always `nil`. -/
def Store.Create (_s : Store) (_key : String) : s3blob × Option GoErr :=
  ({ pw := .opened [], didSync := false }, none)

/-- `Store.Open`: calls `GetObject` on the prefixed key; a minio error
whose status code is `http.StatusNotFound` becomes `module.ErrNoSuchBlob`,
any other error passes through unmodified, and on success the object's
byte stream is returned. -/
def Store.Open (s : Store) (cl : Client) (key : String) : Except GoErr (List Nat) :=
  match cl.GetObject (s.objectPrefix ++ key) with
  | .error err =>
      if (ToErrorResponse err).statusCode = StatusNotFound then
        .error .noSuchBlob
      else
        .error err
  | .ok obj => .ok obj

/-- One log line of `s.log.Error("failed to delete object", lastErr, s.objectPrefix+k)`. -/
structure LogEntry where
  msg : String
  err : GoErr
  objName : String
deriving DecidableEq, Repr

/-- The observable effect of `Store.Delete`: the final client, the object
names passed to `RemoveObject` in call order, the log lines in emission
order, and the returned `lastErr`. -/
structure DeleteTrace where
  cl : Client
  calls : List String
  logs : List LogEntry
  lastErr : Option GoErr

/-- The loop of `Store.Delete`: for each key in order, `lastErr` is
overwritten with the outcome of that key's `RemoveObject`, and a failure
is logged; the loop never breaks early. -/
def deleteLoop (s : Store) (cl : Client) (lastErr : Option GoErr) :
    List String → DeleteTrace
  | [] => { cl := cl, calls := [], logs := [], lastErr := lastErr }
  | k :: ks =>
      let objName := s.objectPrefix ++ k
      let r := cl.RemoveObject objName
      let rest := deleteLoop s r.1 r.2 ks
      { cl := rest.cl,
        calls := objName :: rest.calls,
        logs := (match r.2 with
                 | some e => { msg := "failed to delete object", err := e,
                               objName := objName } :: rest.logs
                 | none => rest.logs),
        lastErr := rest.lastErr }

/-- `Store.Delete(keys)`: iterates all keys, returning the trace. -/
def Store.Delete (s : Store) (cl : Client) (keys : List String) : DeleteTrace :=
  deleteLoop s cl none keys

/-- Writing a byte sequence through the handle as a sequence of chunks
(one `Write` call per chunk, in order). -/
def writeAll (b : s3blob) : List (List Nat) → s3blob
  | [] => b
  | c :: cs => writeAll (b.Write c).1 cs

/-- A client with an empty bucket and no injected faults. -/
def emptyClient : Client :=
  ⟨fun _ => none, fun _ => none, fun _ => none, fun _ => none⟩

/-! ## Helper lemmas -/

lemma writeAll_opened (w : List Nat) (d : Bool) (cs : List (List Nat)) :
    writeAll { pw := .opened w, didSync := d } cs =
      { pw := .opened (w ++ cs.flatten), didSync := d } := by
  induction cs generalizing w with
  | nil => simp [writeAll]
  | cons c cs ih =>
      simp [writeAll, s3blob.Write, PipeState.write, ih, List.append_assoc]

lemma RemoveObject_snd (cl : Client) (n : String) :
    (cl.RemoveObject n).2 = cl.removeFail n := by
  cases h : cl.removeFail n <;> simp [Client.RemoveObject, h]

lemma RemoveObject_fst_removeFail (cl : Client) (n m : String) :
    ((cl.RemoveObject n).1).removeFail m = cl.removeFail m := by
  cases h : cl.removeFail n <;> simp [Client.RemoveObject, h]

lemma deleteLoop_lastErr (s : Store) (cl : Client) (le : Option GoErr)
    (keys : List String) :
    (deleteLoop s cl le keys).lastErr =
      (keys.getLast?).elim le (fun k => cl.removeFail (s.objectPrefix ++ k)) := by
  induction keys generalizing cl le with
  | nil => simp [deleteLoop]
  | cons k ks ih =>
      have h := ih ((cl.RemoveObject (s.objectPrefix ++ k)).1)
        ((cl.RemoveObject (s.objectPrefix ++ k)).2)
      simp only [deleteLoop]
      rw [h]
      cases ks with
      | nil => simp [RemoveObject_snd]
      | cons k' ks' =>
          rw [List.getLast?_cons_cons]
          cases hg : (k' :: ks').getLast? with
          | none => simp at hg
          | some kl => simp [RemoveObject_fst_removeFail]

lemma deleteLoop_calls (s : Store) (cl : Client) (le : Option GoErr)
    (keys : List String) :
    (deleteLoop s cl le keys).calls = keys.map (fun k => s.objectPrefix ++ k) := by
  induction keys generalizing cl le with
  | nil => simp [deleteLoop]
  | cons k ks ih => simp [deleteLoop, ih]

lemma deleteLoop_logs (s : Store) (cl : Client) (le : Option GoErr)
    (keys : List String) :
    (deleteLoop s cl le keys).logs = keys.filterMap (fun k =>
      (cl.removeFail (s.objectPrefix ++ k)).map (fun e =>
        { msg := "failed to delete object", err := e,
          objName := s.objectPrefix ++ k })) := by
  induction keys generalizing cl le with
  | nil => simp [deleteLoop]
  | cons k ks ih =>
      have h := ih ((cl.RemoveObject (s.objectPrefix ++ k)).1)
        ((cl.RemoveObject (s.objectPrefix ++ k)).2)
      simp only [deleteLoop, h, List.filterMap_cons]
      cases hr : cl.removeFail (s.objectPrefix ++ k) with
      | none => simp [RemoveObject_snd, hr, RemoveObject_fst_removeFail]
      | some e => simp [RemoveObject_snd, hr, RemoveObject_fst_removeFail]

/-! ## Claim theorems -/

/-- C1: for every key and every byte sequence written in any chunking,
creating a handle, writing the chunks, and calling `Sync` with a
successful outcome (no injected put failure) makes a subsequent `Open`
of the same key yield exactly the concatenation of the chunks (the empty
sequence included, as `chunks` may be empty). -/
theorem create_write_sync_open (s : Store) (cl : Client) (k : String)
    (chunks : List (List Nat))
    (hput : cl.putFail (s.objectPrefix ++ k) = none)
    (hget : cl.getFail (s.objectPrefix ++ k) = none) :
    (s3blob.Sync s cl k (writeAll (Store.Create s k).1 chunks)).2.2 = .ok none ∧
    Store.Open s (s3blob.Sync s cl k (writeAll (Store.Create s k).1 chunks)).1 k =
      .ok chunks.flatten := by
  have hw := writeAll_opened [] false chunks
  simp only [Store.Create, hw, List.nil_append]
  simp [s3blob.Sync, PipeState.close, backgroundTask, Client.PutObject, hput,
    Store.Open, Client.GetObject, hget]

/-- C1 witness: a concrete round trip with the payload [1, 2, 3] written
as the chunks [1, 2] and [3]. -/
theorem create_write_sync_open_witness :
    (s3blob.Sync ⟨"bkt", "p/"⟩ emptyClient "x"
        (writeAll (Store.Create ⟨"bkt", "p/"⟩ "x").1 [[1, 2], [3]])).2.2 = .ok none ∧
    Store.Open ⟨"bkt", "p/"⟩
        (s3blob.Sync ⟨"bkt", "p/"⟩ emptyClient "x"
          (writeAll (Store.Create ⟨"bkt", "p/"⟩ "x").1 [[1, 2], [3]])).1 "x" =
      .ok [1, 2, 3] := by
  have h := create_write_sync_open ⟨"bkt", "p/"⟩ emptyClient "x" [[1, 2], [3]] rfl rfl
  simpa using h

/-- C4: after any `Sync` call on a handle — whatever the store, client,
key or prior writes — a further `Sync` on the resulting handle panics
with the fixed message, i.e. it never returns normally, so a second
commit is always detectably rejected. -/
theorem sync_twice_panics (s s' : Store) (cl cl' : Client) (k k' : String)
    (b : s3blob) :
    (s3blob.Sync s' cl' k' (s3blob.Sync s cl k b).2.1).2.2 =
      .panicked syncTwiceMsg := by
  by_cases h : b.didSync <;> simp [s3blob.Sync, h]

/-- C10: `Close` returns `nil` in every handle state: before `Sync`
(abandonment) and after `Sync` alike. -/
theorem close_returns_nil (b : s3blob) : (s3blob.Close b).2 = none := by
  by_cases h : b.didSync <;> simp [s3blob.Close, h]

/-- C5: once the pipe write end is closed (commit or abandonment, upload
success or failure, any client state), the background task sends exactly
one value on the outcome channel, and that single send fits within the
channel's buffer capacity of one, so it never blocks and the task
terminates after its put call completes. -/
theorem task_posts_exactly_once (s : Store) (cl : Client) (k : String)
    (p : PipeState) (h : p.isClosed = true) :
    (backgroundTask s cl k p).sends.length = 1 ∧
    (backgroundTask s cl k p).sends.length ≤ errChCapacity := by
  cases p with
  | opened w => simp [PipeState.isClosed] at h
  | closedClean w =>
      cases hr : cl.putFail (s.objectPrefix ++ k) <;>
        simp [backgroundTask, Client.PutObject, hr, errChCapacity]
  | closedErr w e => simp [backgroundTask, errChCapacity]

/-- C5 witness: the task's single post on a concrete cleanly closed
pipe. -/
theorem task_posts_exactly_once_witness :
    (backgroundTask ⟨"bkt", ""⟩ emptyClient "k" (.closedClean [])).sends.length = 1 ∧
    (backgroundTask ⟨"bkt", ""⟩ emptyClient "k" (.closedClean [])).sends.length ≤
      errChCapacity :=
  task_posts_exactly_once ⟨"bkt", ""⟩ emptyClient "k" (.closedClean []) rfl

/-- C7: `Open` yields `NoSuchBlob` exactly when the backend `get` call
errored with HTTP status 404; any other backend error passes through
unmodified, and on success the backend's byte stream is returned. The
hypothesis excludes the degenerate fault injection where the backend
itself would return the domain sentinel `ErrNoSuchBlob` (the minio
client never produces maddy's own sentinel error value). -/
theorem open_not_found_mapping (s : Store) (cl : Client) (k : String)
    (hwf : cl.getFail (s.objectPrefix ++ k) ≠ some GoErr.noSuchBlob) :
    (∀ e, cl.GetObject (s.objectPrefix ++ k) = .error e →
        ((ToErrorResponse e).statusCode = StatusNotFound →
            Store.Open s cl k = .error .noSuchBlob) ∧
        ((ToErrorResponse e).statusCode ≠ StatusNotFound →
            Store.Open s cl k = .error e)) ∧
    (∀ d, cl.GetObject (s.objectPrefix ++ k) = .ok d →
        Store.Open s cl k = .ok d) ∧
    (Store.Open s cl k = .error .noSuchBlob →
        ∃ e, cl.GetObject (s.objectPrefix ++ k) = .error e ∧
          (ToErrorResponse e).statusCode = StatusNotFound) := by
  refine ⟨fun e he => ⟨fun h4 => ?_, fun h4 => ?_⟩, fun d hd => ?_, fun hopen => ?_⟩
  · simp [Store.Open, he, h4]
  · simp [Store.Open, he, h4]
  · simp [Store.Open, hd]
  · cases hg : cl.GetObject (s.objectPrefix ++ k) with
    | ok d =>
        rw [Store.Open.eq_def, hg] at hopen
        exact absurd hopen (by simp)
    | error e =>
        by_cases h4 : (ToErrorResponse e).statusCode = StatusNotFound
        · exact ⟨e, rfl, h4⟩
        · rw [Store.Open.eq_def, hg] at hopen
          simp only [h4, if_false] at hopen
          rw [Except.error.injEq] at hopen
          subst hopen
          rw [Client.GetObject.eq_def] at hg
          cases hgf : cl.getFail (s.objectPrefix ++ k) with
          | some e' =>
              rw [hgf] at hg
              simp only [Except.error.injEq] at hg
              exact (hwf (by rw [hgf, hg])).elim
          | none =>
              rw [hgf] at hg
              cases ho : cl.objects (s.objectPrefix ++ k) with
              | some d => rw [ho] at hg; simp at hg
              | none => rw [ho] at hg; simp at hg

/-- C7 witness: opening a key never written against a fault-free empty
bucket hits the backend's 404 and yields `NoSuchBlob`. -/
theorem open_not_found_mapping_witness :
    Store.Open ⟨"bkt", "p/"⟩ emptyClient "x" = .error .noSuchBlob := by
  have h := open_not_found_mapping ⟨"bkt", "p/"⟩ emptyClient "x" (by simp [emptyClient])
  exact (h.1 _ rfl).1 rfl

/-- C8: `Delete` calls the backend removal on every key in the
caller-supplied order, prefixed, regardless of individual failures (no
short-circuit), and its log is exactly one entry per failing key, in
encounter order, recorded as the failure occurs. -/
theorem delete_visits_all_and_logs (s : Store) (cl : Client) (keys : List String) :
    (Store.Delete s cl keys).calls = keys.map (fun k => s.objectPrefix ++ k) ∧
    (Store.Delete s cl keys).logs = keys.filterMap (fun k =>
      (cl.removeFail (s.objectPrefix ++ k)).map (fun e =>
        { msg := "failed to delete object", err := e,
          objName := s.objectPrefix ++ k })) :=
  ⟨deleteLoop_calls s cl none keys, deleteLoop_logs s cl none keys⟩

/-- A client whose removal of the object named k2 fails and all other
calls succeed. -/
def failK2Client : Client :=
  ⟨fun _ => none, fun _ => none, fun _ => none,
   fun n => if n = "k2" then some (.minio ⟨500, "boom"⟩) else none⟩

/-- C2 counterexample: deleting [k1, k2, k3] where k2's removal fails and
k3's succeeds returns `nil` — the call does NOT report an error, because
`lastErr` is overwritten by the final successful removal; the failure was
encountered (it is in the log) but is invisible in the return value. -/
theorem delete_last_error_counterexample :
    (Store.Delete ⟨"bkt", ""⟩ failK2Client ["k1", "k2", "k3"]).lastErr = none ∧
    (Store.Delete ⟨"bkt", ""⟩ failK2Client ["k1", "k2", "k3"]).logs =
      [{ msg := "failed to delete object", err := .minio ⟨500, "boom"⟩,
         objName := "k2" }] := by
  constructor <;> rfl

/-- C2 amended: `Delete` returns the outcome of the final key's removal
only — `nil` for an empty key list, and otherwise the error (or `nil`) of
the last key's `RemoveObject` call; so it reports success whenever the
final removal succeeds, even if earlier removals failed, and reports an
error only when the final removal itself fails. -/
theorem delete_returns_final_outcome (s : Store) (cl : Client)
    (keys : List String) :
    (Store.Delete s cl keys).lastErr =
      (keys.getLast?).elim none (fun k => cl.removeFail (s.objectPrefix ++ k)) :=
  deleteLoop_lastErr s cl none keys

/-- A client whose put of any object fails with a minio 500 error. -/
def failPutClient : Client :=
  ⟨fun _ => none, fun _ => some (.minio ⟨500, "boom"⟩), fun _ => none, fun _ => none⟩

/-- C3 counterexample: with an injected backend put failure, `Sync`
returns the raw backend error itself — not an `fmt.Errorf` wrapping, and
with no mention of the key — because the goroutine sends the unwrapped
`err` on `errCh` and applies the `"s3 PutObject: %w"` wrapping only to
the pipe read-end close. -/
theorem sync_unwrapped_counterexample :
    (s3blob.Sync ⟨"bkt", ""⟩ failPutClient "k"
        { pw := .opened [1], didSync := false }).2.2 =
      .ok (some (.minio ⟨500, "boom"⟩)) ∧
    GoErr.isWrapping (.minio ⟨500, "boom"⟩) = false ∧
    (backgroundTask ⟨"bkt", ""⟩ failPutClient "k" (.closedClean [1])).prCloseErr =
      some (.errorf "s3 PutObject" (.minio ⟨500, "boom"⟩)) := ⟨rfl, rfl, rfl⟩

/-- C3 amended: `Sync` returns exactly the single value the background
task posts on the outcome channel: `nil` on success, and on failure the
raw backend put error, unwrapped and without key context — the
`"s3 PutObject: %w"` wrapping is applied only to the pipe's read-end
close (visible to subsequent writes), never to `Sync`'s return value. -/
theorem sync_returns_posted_value (s : Store) (cl : Client) (k : String)
    (w : List Nat) (b : s3blob) (hb : b.didSync = false)
    (hw : b.pw = .opened w) :
    (s3blob.Sync s cl k b).2.2 =
      .ok ((backgroundTask s cl k (PipeState.closedClean w)).sends.headD none) ∧
    (cl.putFail (s.objectPrefix ++ k) = none →
      (backgroundTask s cl k (PipeState.closedClean w)).sends = [none]) ∧
    (∀ e, cl.putFail (s.objectPrefix ++ k) = some e →
      (backgroundTask s cl k (PipeState.closedClean w)).sends = [some e] ∧
      (backgroundTask s cl k (PipeState.closedClean w)).prCloseErr =
        some (.errorf "s3 PutObject" e)) := by
  refine ⟨?_, fun hp => ?_, fun e hp => ?_⟩
  · simp [s3blob.Sync, hb, hw, PipeState.close]
  · simp [backgroundTask, Client.PutObject, hp]
  · simp [backgroundTask, Client.PutObject, hp]

/-- C3 amended witness: the success case on a concrete fault-free
client. -/
theorem sync_returns_posted_value_witness :
    (s3blob.Sync ⟨"bkt", ""⟩ emptyClient "k"
        { pw := .opened [1], didSync := false }).2.2 =
      .ok ((backgroundTask ⟨"bkt", ""⟩ emptyClient "k"
        (PipeState.closedClean [1])).sends.headD none) :=
  (sync_returns_posted_value ⟨"bkt", ""⟩ emptyClient "k" [1]
    { pw := .opened [1], didSync := false } rfl rfl).1

/-- C6 counterexample: `Close` before `Sync` does error-close the pipe,
but the error's message is the source's "storage.blob.s3: blob closed
without Sync", which is not the claimed "handle closed without commit". -/
theorem close_message_counterexample :
    (s3blob.Close { pw := .opened [], didSync := false }).1.pw =
      .closedErr [] (.message closeNoSyncMsg) ∧
    closeNoSyncMsg ≠ "handle closed without commit" := ⟨rfl, by decide⟩

/-- C6 amended: `Close` before `Sync` closes the pipe write end with an
error whose message is "storage.blob.s3: blob closed without Sync" — an
error close, never a clean EOF close — so the background task's upload
aborts with an error rather than storing a truncated object; `Close`
after `Sync` leaves the handle (in particular the pipe) untouched. -/
theorem close_aborts_or_noop (s : Store) (cl : Client) (k : String)
    (b : s3blob) (w : List Nat) :
    (b.didSync = false →
      (s3blob.Close b).1.pw = b.pw.closeWithError (.message closeNoSyncMsg)) ∧
    (b.didSync = false → b.pw = .opened w →
      (s3blob.Close b).1.pw = .closedErr w (.message closeNoSyncMsg) ∧
      (backgroundTask s cl k (s3blob.Close b).1.pw).sends =
        [some (abortedPut (.message closeNoSyncMsg))]) ∧
    (b.didSync = true → (s3blob.Close b).1 = b) := by
  refine ⟨fun hb => ?_, fun hb hw => ?_, fun hb => ?_⟩
  · simp [s3blob.Close, hb]
  · simp [s3blob.Close, hb, hw, PipeState.closeWithError, backgroundTask]
  · simp [s3blob.Close, hb]

/-- C6 amended witness: discarding a concrete fresh, unsynced handle. -/
theorem close_aborts_or_noop_witness :
    (s3blob.Close { pw := .opened [7], didSync := false }).1.pw =
      .closedErr [7] (.message closeNoSyncMsg) := by
  have h := close_aborts_or_noop ⟨"bkt", ""⟩ emptyClient "k"
    { pw := .opened [7], didSync := false } [7]
  exact (h.2.1 rfl rfl).1

end S3
